import Mathlib

/-!
Shallow embedding of the Job Execution and Bookkeeping subsystem of the
shell-agent repository (src/http_cmd_handler.go), together with theorems
settling the specification claims about it.

The worker cmdWorker is embedded as a function from an execution
environment (the nondeterministic outcomes supplied by the operating
system: start success or failure, process exit outcome, whether the
cancellation watcher fired) to the ordered list of writes it performs on
the Job record, plus a flag recording whether the run panicked (a nil
error dereference).  The HTTP handlers are embedded as pure functions
over a registry of jobs.
-/

namespace ShellAgent

/-- Job status enum.  The source defines the constants JSRunning,
JSFinished, JSFailed, JSCanceled; JSRunning is the sole initial state. -/
inductive JobStatus
  | JSRunning
  | JSFinished
  | JSFailed
  | JSCanceled
deriving DecidableEq, Repr

/-- A status is terminal when it is not JSRunning. -/
def isTerminal : JobStatus → Bool
  | .JSRunning => false
  | _ => true

/-- The Job record (field names follow the Go struct).  Times are Nat
timestamps; time.Unix(0,0), the "not finished" sentinel, is 0. -/
structure Job where
  Id : String
  Cmd : String
  Dir : String
  Env : List String
  CreateTime : Nat
  FinishTime : Nat
  Pid : Int
  Stdout : String
  Stderr : String
  ExitCode : Int
  Error : String
  Status : JobStatus
deriving DecidableEq, Repr

/-- The command-creation request body (RunCmdReq in the source). -/
structure RunCmdReq where
  Cmd : String
  Async : Bool
  Dir : String
  Env : List String
deriving DecidableEq, Repr

/-- Job construction in RunCmdHandler (src/http_cmd_handler.go lines
73-87): request fields copied, Status JSRunning, CreateTime now,
FinishTime the sentinel time.Unix(0,0); the remaining runtime fields
keep their Go zero values. -/
def mkJob (req : RunCmdReq) (id : String) (now : Nat) : Job :=
  { Id := id
    Cmd := req.Cmd
    Dir := req.Dir
    Env := req.Env
    CreateTime := now
    FinishTime := 0
    Pid := 0
    Stdout := ""
    Stderr := ""
    ExitCode := 0
    Error := ""
    Status := .JSRunning }

/-- The closed set of error categories the handlers report (ECUnknown,
ECInvalidParam, ECJobNotFound, ECJobNotRunning in the source; ECOk is
the success envelope of NewResponse with no error set). -/
inductive ErrCode
  | ECOk
  | ECUnknown
  | ECInvalidParam
  | ECJobNotFound
  | ECJobNotRunning
deriving DecidableEq, Repr

/-- Go slice append restricted to what line 132 needs:
cmd.Env = append(cmd.Env, job.Env...) where cmd.Env starts as the nil
slice.  Appending zero elements to nil returns nil; appending a
non-empty list to nil returns exactly that list. -/
def goAppend (base : Option (List String)) (xs : List String) :
    Option (List String) :=
  match base, xs with
  | none, [] => none
  | none, x :: rest => some (x :: rest)
  | some b, ys => some (b ++ ys)

/-- The launch configuration of the child process (the exec.Cmd fields
the source sets).  Env = none models the nil slice, under which the Go
runtime makes the child inherit the parent environment. -/
structure ExecCmd where
  Argv : List String
  Dir : String
  Env : Option (List String)
deriving DecidableEq, Repr

/-- Building the exec.Cmd (lines 124-132): platform command framing by
runtime.GOOS, working directory, and the env append onto the nil
slice. -/
def buildCmd (goos : String) (job : Job) : ExecCmd :=
  { Argv := if goos == "windows" then ["cmd", "/c", job.Cmd]
            else ["sh", "-c", job.Cmd]
    Dir := job.Dir
    Env := goAppend none job.Env }

/-- The environment the spawned child actually receives: exactly
cmd.Env when it is non-nil, else the parent environment (os/exec
semantics for a nil Env field). -/
def childEnv (c : ExecCmd) (parentEnv : List String) : List String :=
  match c.Env with
  | none => parentEnv
  | some e => e

/-- How the child process ended: via a real exit status, killed by a
signal (e.g. the forced kill from cancellation), or a wait failure that
is not an exec.ExitError. -/
inductive ProcOutcome
  | exited (code : Int)
  | signaled (sig : String)
  | waitFailure (msg : String)
deriving DecidableEq, Repr

/-- The shape of a non-nil error returned by cmd.Wait: whether it is an
exec.ExitError, whether ee.Exited() is true, the decoded
syscall.WaitStatus exit code, and the err.Error() text. -/
structure WaitError where
  isExitError : Bool
  exited : Bool
  exitCode : Int
  msg : String
deriving DecidableEq, Repr

/-- cmd.Wait semantics (os/exec): nil error exactly when the process
exited with status 0; an exec.ExitError with Exited() true and the real
code for a non-zero exit ("exit status N"); an exec.ExitError with
Exited() false for signal termination (ExitStatus() reports -1); a
non-ExitError error for other wait failures. -/
def waitResult : ProcOutcome → Option WaitError
  | .exited n =>
      if n = 0 then none
      else some ⟨true, true, n, "exit status " ++ toString n⟩
  | .signaled s => some ⟨true, false, -1, "signal: " ++ s⟩
  | .waitFailure m => some ⟨false, false, 0, m⟩

/-- The nondeterministic outcomes the operating system supplies to one
cmdWorker run: the GOOS, whether cmd.Start failed (with its error
text), the pid on success, how the process ended, whether the watcher
goroutine observed ctx.Done() before doneC (setting the local canceled
flag), whether the process was still alive when the watcher killed it,
the final contents of the two capture buffers, and the time.Now() value
read by the deferred cleanup. -/
structure WorkerEnv where
  goos : String
  startErr : Option String
  pid : Int
  outcome : ProcOutcome
  cancelFired : Bool
  aliveAtKill : Bool
  stdoutData : String
  stderrData : String
  finishNow : Nat
deriving DecidableEq, Repr

/-- Operating-system coherence of an environment: killing a process
that is still alive makes it terminate by signal, so cmd.Wait reports a
signal-termination error for it. -/
def WorkerEnv.WF (env : WorkerEnv) : Prop :=
  env.cancelFired = true → env.aliveAtKill = true →
    ∃ s, env.outcome = ProcOutcome.signaled s

/-- One write performed by cmdWorker on the Job record. -/
inductive Ev
  | setPid (p : Int)
  | setExitCode (n : Int)
  | setError (s : String)
  | setStatus (st : JobStatus)
  | setFinishTime (t : Nat)
  | setStdout (s : String)
  | setStderr (s : String)
deriving DecidableEq, Repr

/-- The result of one cmdWorker run: the Job writes in execution order
(deferred cleanup included) and whether the run panicked.  A panic
still runs the deferred cleanup before crashing. -/
structure WorkerRun where
  events : List Ev
  panicked : Bool
deriving DecidableEq, Repr

/-- The deferred cleanup (lines 114-118): FinishTime := time.Now(),
then the two capture buffers are copied into the Job. -/
def deferEvents (now : Nat) (outS errS : String) : List Ev :=
  [.setFinishTime now, .setStdout outS, .setStderr errS]

/-- The exit classification (lines 163-179): nil wait error means
JSFinished; a non-nil error records the exit code when the error is an
exec.ExitError with Exited() true, then sets Error from the wait error
and Status JSFailed. -/
def classifyEvents : Option WaitError → List Ev
  | none => [.setStatus .JSFinished]
  | some e =>
      (if e.isExitError && e.exited then [Ev.setExitCode e.exitCode] else [])
        ++ [.setError e.msg, .setStatus .JSFailed]

/-- cmdWorker (lines 109-188).  Start failure: record the error text,
set JSFailed, return (the deferred cleanup still runs, with empty
buffers).  Otherwise: record the pid, run the exit classification on
the cmd.Wait result, then, if the watcher set the canceled flag,
execute the cancellation override (lines 182-186): Error :=
err.Error() and Status := JSCanceled.  When the wait error is nil that
override dereferences a nil error and panics before either write; the
deferred cleanup still runs. -/
def cmdWorker (env : WorkerEnv) : WorkerRun :=
  match env.startErr with
  | some m =>
      ⟨[.setError m, .setStatus .JSFailed]
        ++ deferEvents env.finishNow "" "", false⟩
  | none =>
      let classify := classifyEvents (waitResult env.outcome)
      match env.cancelFired, waitResult env.outcome with
      | true, some e =>
          ⟨Ev.setPid env.pid :: classify
            ++ [.setError e.msg, .setStatus .JSCanceled]
            ++ deferEvents env.finishNow env.stdoutData env.stderrData,
           false⟩
      | true, none =>
          ⟨Ev.setPid env.pid :: classify
            ++ deferEvents env.finishNow env.stdoutData env.stderrData,
           true⟩
      | false, _ =>
          ⟨Ev.setPid env.pid :: classify
            ++ deferEvents env.finishNow env.stdoutData env.stderrData,
           false⟩

/-- Apply one write to the Job record. -/
def applyEv (j : Job) : Ev → Job
  | .setPid p => { j with Pid := p }
  | .setExitCode n => { j with ExitCode := n }
  | .setError s => { j with Error := s }
  | .setStatus st => { j with Status := st }
  | .setFinishTime t => { j with FinishTime := t }
  | .setStdout s => { j with Stdout := s }
  | .setStderr s => { j with Stderr := s }

/-- Apply a list of writes in order. -/
def applyEvents (j : Job) (l : List Ev) : Job := l.foldl applyEv j

/-- The Job record after one cmdWorker run over initial record j. -/
def runJob (env : WorkerEnv) (j : Job) : Job :=
  applyEvents j (cmdWorker env).events

/-- The sequence of values written to the Status field, in order. -/
def statusWrites (l : List Ev) : List JobStatus :=
  l.filterMap fun e =>
    match e with
    | .setStatus st => some st
    | _ => none

/-- The sequence of values written to the FinishTime field, in order. -/
def finishWrites (l : List Ev) : List Nat :=
  l.filterMap fun e =>
    match e with
    | .setFinishTime t => some t
    | _ => none

/-- The sequence of values written to the Pid field, in order. -/
def pidWrites (l : List Ev) : List Int :=
  l.filterMap fun e =>
    match e with
    | .setPid p => some p
    | _ => none

/-- Holds when, in a sequence of status values, every value from a
terminal one onward equals that terminal value (no write ever changes
a terminal status). -/
def terminalStable : List JobStatus → Bool
  | [] => true
  | s :: rest =>
      ((!isTerminal s) || rest.all (· == s)) && terminalStable rest

/-- strings.TrimSpace (Go standard library): strip leading and
trailing whitespace from the id strings the handlers receive. -/
def trimSpace (s : String) : String :=
  ⟨((s.data.dropWhile Char.isWhitespace).reverse.dropWhile
      Char.isWhitespace).reverse⟩

/-- Modelled from the spec: JobBookkeeper.Get, whose definition is not
in this excerpt of the repository.  Point lookup by identifier in the
registry; returns the job or not-found (nil).  The registry is embedded
as the list of registered jobs. -/
def bookkeeperGet (reg : List Job) (id : String) : Option Job :=
  reg.find? fun j => j.Id == id

/-- Modelled from the spec: JobBookkeeper.Add, whose definition is not
in this excerpt of the repository.  Inserts a new job keyed by its
identifier; the record becomes visible immediately. -/
def bookkeeperAdd (reg : List Job) (j : Job) : List Job :=
  j :: reg

/-- RunCmdHandler (lines 51-107), after body decoding: reject an empty
command with ECInvalidParam before any state change; a uuid-generation
failure yields ECUnknown, also before any state change; otherwise build
the job and register it.  Returns the error category and the resulting
registry. -/
def RunCmdHandler (reg : List Job) (req : RunCmdReq)
    (uuidRes : Option String) (now : Nat) : ErrCode × List Job :=
  if req.Cmd == "" then (.ECInvalidParam, reg)
  else
    match uuidRes with
    | none => (.ECUnknown, reg)
    | some id => (.ECOk, bookkeeperAdd reg (mkJob req id now))

/-- QueryCmdHandler (lines 191-205): trim the id, reject an empty id
with ECInvalidParam, otherwise look the job up; not found yields
ECJobNotFound, else the job snapshot is returned. -/
def QueryCmdHandler (reg : List Job) (rawId : String) :
    ErrCode × Option Job :=
  let id := trimSpace rawId
  if id == "" then (.ECInvalidParam, none)
  else
    match bookkeeperGet reg id with
    | none => (.ECJobNotFound, none)
    | some j => (.ECOk, some j)

/-- CancelCmdHandler (lines 213-228): trim the id (note: no empty-id
check), look the job up; not found yields ECJobNotFound; a job whose
Status is not JSRunning yields ECJobNotRunning without invoking the
cancellation handle; otherwise the handle is invoked and success is
returned.  The Bool records whether job.cancelFunc() was invoked. -/
def CancelCmdHandler (reg : List Job) (rawId : String) :
    ErrCode × Bool :=
  match bookkeeperGet reg (trimSpace rawId) with
  | none => (.ECJobNotFound, false)
  | some job =>
      if job.Status ≠ .JSRunning then (.ECJobNotRunning, false)
      else (.ECOk, true)

/-! Concrete fixtures used by witnesses and counterexamples. -/

def jobRunning : Job := mkJob ⟨"sleep 100", true, "", []⟩ "id-1" 3

def jobDone : Job := { jobRunning with Id := "id-2", Status := .JSFinished }

def jobEnvOverride : Job := mkJob ⟨"env", false, "/tmp", ["FOO=1", "BAR=2"]⟩ "id-3" 4

def envStartFail : WorkerEnv :=
  ⟨"linux", some ("fork/exec: no such file"), 0, .exited 0, false, false, "", "", 5⟩

def envCancelKill : WorkerEnv :=
  ⟨"linux", none, 4242, .signaled "killed", true, true, "", "", 9⟩

def envCancelClean : WorkerEnv :=
  ⟨"linux", none, 4242, .exited 0, true, false, "done", "", 9⟩

def envExit7 : WorkerEnv :=
  ⟨"linux", none, 100, .exited 7, false, false, "", "boom", 8⟩

def envExit0 : WorkerEnv :=
  ⟨"linux", none, 100, .exited 0, false, false, "ok", "", 8⟩

lemma exitStatusMsg_ne_empty (n : Int) : ("exit status " ++ toString n) ≠ "" := by
  intro h
  have hlen := congrArg String.length h
  rw [String.length_append] at hlen
  rw [show ("exit status ").length = 12 from rfl] at hlen
  rw [show ("" : String).length = 0 from rfl] at hlen
  omega

lemma bookkeeperGet_empty_id (reg : List Job) (h : ∀ j ∈ reg, j.Id ≠ "") :
    bookkeeperGet reg "" = none := by
  induction reg with
  | nil => rfl
  | cons j rest ih =>
      have hj : (j.Id == "") = false := by
        simpa using h j (List.mem_cons_self j rest)
      have hr := ih fun k hk => h k (List.mem_cons_of_mem j hk)
      simp only [bookkeeperGet] at hr ⊢
      rw [List.find?_cons_of_neg _ (by simp [hj])]
      exact hr

/-- Claim C1: a job whose cancellation handle was invoked while its
child process was still alive (the watcher set the canceled flag) ends
with Status JSCanceled, whatever the wait-step exit classification
wrote, and the run does not panic. -/
theorem cancel_while_alive_ends_canceled (env : WorkerEnv) (j : Job)
    (hwf : env.WF) (hs : env.startErr = none)
    (hc : env.cancelFired = true) (ha : env.aliveAtKill = true) :
    (runJob env j).Status = .JSCanceled ∧
      (cmdWorker env).panicked = false := by
  obtain ⟨s, hoc⟩ := hwf hc ha
  simp [runJob, cmdWorker, hs, hc, hoc, waitResult, classifyEvents,
        deferEvents, applyEvents, applyEv]

theorem cancel_while_alive_ends_canceled_witness :
    (runJob envCancelKill jobRunning).Status = .JSCanceled ∧
      (cmdWorker envCancelKill).panicked = false :=
  cancel_while_alive_ends_canceled envCancelKill jobRunning
    (fun _ _ => ⟨"killed", rfl⟩) rfl rfl rfl

/-- Claim C9: with the canceled flag set, the final override evaluates
err.Error() on the wait error; the run panics on a nil dereference
exactly when cmd.Wait returned no error. -/
theorem cancel_nil_error_panics (env : WorkerEnv)
    (hs : env.startErr = none) (hc : env.cancelFired = true) :
    (cmdWorker env).panicked = true ↔ waitResult env.outcome = none := by
  cases hw : waitResult env.outcome <;> simp [cmdWorker, hs, hc, hw]

theorem cancel_nil_error_panics_witness :
    (cmdWorker envCancelClean).panicked = true :=
  (cancel_nil_error_panics envCancelClean rfl rfl).mpr rfl

/-- Claim C6: on a start failure the worker records the error text,
sets JSFailed and returns at once: the full write sequence is just
those two writes plus the deferred cleanup, so no pid is recorded
(Pid keeps its initial value) and no wait classification runs. -/
theorem start_failure_no_process (env : WorkerEnv) (j : Job) (m : String)
    (hs : env.startErr = some m) :
    cmdWorker env =
      ⟨[.setError m, .setStatus .JSFailed, .setFinishTime env.finishNow,
        .setStdout "", .setStderr ""], false⟩ ∧
    (runJob env j).Status = .JSFailed ∧ (runJob env j).Error = m ∧
      (runJob env j).Pid = j.Pid := by
  refine ⟨by simp [cmdWorker, hs, deferEvents], ?_, ?_, ?_⟩ <;>
    simp [runJob, cmdWorker, hs, deferEvents, applyEvents, applyEv]

theorem start_failure_no_process_witness :
    cmdWorker envStartFail =
      ⟨[.setError ("fork/exec: no such file"), .setStatus .JSFailed,
        .setFinishTime 5, .setStdout "", .setStderr ""], false⟩ ∧
    (runJob envStartFail jobRunning).Status = .JSFailed ∧
    (runJob envStartFail jobRunning).Error = "fork/exec: no such file" ∧
      (runJob envStartFail jobRunning).Pid = jobRunning.Pid :=
  start_failure_no_process envStartFail jobRunning _ rfl

/-- Claim C4: a non-zero exit with no cancellation ends in JSFailed,
with ExitCode the real code and a non-empty error text. -/
theorem nonzero_exit_failed (env : WorkerEnv) (j : Job) (n : Int)
    (hs : env.startErr = none) (ho : env.outcome = .exited n)
    (hn : n ≠ 0) (hc : env.cancelFired = false) :
    (runJob env j).Status = .JSFailed ∧ (runJob env j).ExitCode = n ∧
      (runJob env j).Error ≠ "" := by
  have hmsg := exitStatusMsg_ne_empty n
  refine ⟨?_, ?_, ?_⟩ <;>
    simp [runJob, cmdWorker, hs, hc, ho, waitResult, hn, classifyEvents,
          deferEvents, applyEvents, applyEv, hmsg]

theorem nonzero_exit_failed_witness :
    (runJob envExit7 jobRunning).Status = .JSFailed ∧
    (runJob envExit7 jobRunning).ExitCode = 7 ∧
      (runJob envExit7 jobRunning).Error ≠ "" :=
  nonzero_exit_failed envExit7 jobRunning 7 rfl rfl (by decide) rfl

/-- Claim C5: a zero exit with no cancellation, on a job as the handler
creates it, ends in JSFinished with ExitCode 0 and empty error text. -/
theorem zero_exit_finished (env : WorkerEnv) (req : RunCmdReq)
    (id : String) (now : Nat) (hs : env.startErr = none)
    (ho : env.outcome = .exited 0) (hc : env.cancelFired = false) :
    (runJob env (mkJob req id now)).Status = .JSFinished ∧
    (runJob env (mkJob req id now)).ExitCode = 0 ∧
      (runJob env (mkJob req id now)).Error = "" := by
  refine ⟨?_, ?_, ?_⟩ <;>
    simp [runJob, cmdWorker, hs, hc, ho, waitResult, classifyEvents,
          deferEvents, applyEvents, applyEv, mkJob]

theorem zero_exit_finished_witness :
    (runJob envExit0 jobRunning).Status = .JSFinished ∧
    (runJob envExit0 jobRunning).ExitCode = 0 ∧
      (runJob envExit0 jobRunning).Error = "" :=
  zero_exit_finished envExit0 ⟨"sleep 100", true, "", []⟩ "id-1" 3
    rfl rfl rfl

/-- Claim C2 counterexample: on a canceled run whose process was
killed, the Status write sequence is Running, then the terminal
JSFailed written by the exit classification, then JSCanceled — a
subsequent write does change a terminal status, refuting the claim as
stated. -/
theorem terminal_status_overwritten_cex :
    statusWrites (cmdWorker envCancelKill).events =
      [JobStatus.JSFailed, JobStatus.JSCanceled] ∧
    terminalStable (JobStatus.JSRunning ::
      statusWrites (cmdWorker envCancelKill).events) = false := by
  decide

/-- Claim C2 as amended: every value written to Status is terminal
(never back to JSRunning), and each run writes either a single terminal
value, or — exactly on a canceled run whose wait returned an error —
JSFailed immediately overwritten by JSCanceled, after which nothing
more is written. -/
theorem status_writes_terminal_shape (env : WorkerEnv) :
    (∃ t, isTerminal t = true ∧
      statusWrites (cmdWorker env).events = [t]) ∨
    (statusWrites (cmdWorker env).events =
        [JobStatus.JSFailed, JobStatus.JSCanceled] ∧
      env.cancelFired = true) := by
  cases hs : env.startErr with
  | some m =>
      exact Or.inl ⟨.JSFailed, rfl, by
        simp [cmdWorker, hs, statusWrites, deferEvents]⟩
  | none =>
      cases hw : waitResult env.outcome with
      | none =>
          refine Or.inl ⟨.JSFinished, rfl, ?_⟩
          cases hc : env.cancelFired <;>
            simp [cmdWorker, hs, hc, hw, statusWrites, classifyEvents,
                  deferEvents]
      | some e =>
          obtain ⟨ie, ex, code, msg⟩ := e
          cases hc : env.cancelFired with
          | false =>
              refine Or.inl ⟨.JSFailed, rfl, ?_⟩
              cases ie <;> cases ex <;>
                simp [cmdWorker, hs, hc, hw, statusWrites, classifyEvents,
                      deferEvents]
          | true =>
              refine Or.inr ⟨?_, rfl⟩
              cases ie <;> cases ex <;>
                simp [cmdWorker, hs, hc, hw, statusWrites, classifyEvents,
                      deferEvents]

/-- Claim C3 counterexample: on a start failure no process ever ran
(no pid write), yet the deferred cleanup still writes FinishTime,
refuting the claim that FinishTime is never set for a job whose
process never ran. -/
theorem finish_time_without_process_cex :
    envStartFail.startErr.isSome = true ∧
    pidWrites (cmdWorker envStartFail).events = [] ∧
    finishWrites (cmdWorker envStartFail).events ≠ [] := by
  decide

/-- Claim C3 as amended: FinishTime is written exactly once per run,
by the Worker, with the time read by the deferred cleanup — on every
exit path, including a start failure where no process ever ran. -/
theorem finish_time_written_once (env : WorkerEnv) :
    finishWrites (cmdWorker env).events = [env.finishNow] := by
  cases hs : env.startErr with
  | some m => simp [cmdWorker, hs, finishWrites, deferEvents]
  | none =>
      cases hw : waitResult env.outcome with
      | none =>
          cases hc : env.cancelFired <;>
            simp [cmdWorker, hs, hc, hw, finishWrites, classifyEvents,
                  deferEvents]
      | some e =>
          obtain ⟨ie, ex, code, msg⟩ := e
          cases hc : env.cancelFired <;> cases ie <;> cases ex <;>
            simp [cmdWorker, hs, hc, hw, finishWrites, classifyEvents,
                  deferEvents]

/-- Claim C7: the cancel handler reports ECJobNotFound for an
unregistered id; for a job whose Status is not JSRunning it reports
ECJobNotRunning without invoking the cancellation handle; only for a
registered job with Status JSRunning does it invoke the handle and
report success. -/
theorem cancel_handler_cases (reg : List Job) (rawId : String) :
    (bookkeeperGet reg (trimSpace rawId) = none →
      CancelCmdHandler reg rawId = (.ECJobNotFound, false)) ∧
    (∀ j, bookkeeperGet reg (trimSpace rawId) = some j →
      j.Status ≠ .JSRunning →
      CancelCmdHandler reg rawId = (.ECJobNotRunning, false)) ∧
    (∀ j, bookkeeperGet reg (trimSpace rawId) = some j →
      j.Status = .JSRunning →
      CancelCmdHandler reg rawId = (.ECOk, true)) := by
  refine ⟨fun h => ?_, fun j hj hst => ?_, fun j hj hst => ?_⟩
  · simp [CancelCmdHandler, h]
  · simp [CancelCmdHandler, hj, hst]
  · simp [CancelCmdHandler, hj, hst]

theorem cancel_handler_cases_witness :
    CancelCmdHandler [jobRunning] "id-1" = (.ECOk, true) ∧
    CancelCmdHandler [jobDone] "id-2" = (.ECJobNotRunning, false) ∧
    CancelCmdHandler [] "id-1" = (.ECJobNotFound, false) :=
  ⟨(cancel_handler_cases [jobRunning] "id-1").2.2 jobRunning
      (by decide) rfl,
   (cancel_handler_cases [jobDone] "id-2").2.1 jobDone
      (by decide) (by decide),
   (cancel_handler_cases [] "id-1").1 rfl⟩

/-- Claim C8 counterexample: a cancel request with an empty id does not
report ECInvalidParam — the handler has no empty-id validation and the
lookup failure surfaces as ECJobNotFound. -/
theorem cancel_empty_id_cex :
    CancelCmdHandler [] "" = (ErrCode.ECJobNotFound, false) ∧
    ErrCode.ECJobNotFound ≠ ErrCode.ECInvalidParam := by
  decide

/-- Claim C8 as amended: an empty command on job creation and an
empty/missing id on query yield ECInvalidParam with no state change
(the registry is returned untouched, no job is created); the cancel
handler performs no empty-id validation, so an empty id falls through
to lookup and yields ECJobNotFound — also with no state change and
without invoking any cancellation handle. -/
theorem invalid_param_no_state_change (reg : List Job) (req : RunCmdReq)
    (u : Option String) (now : Nat) (rawId : String) :
    (req.Cmd = "" → RunCmdHandler reg req u now = (.ECInvalidParam, reg)) ∧
    (trimSpace rawId = "" →
      QueryCmdHandler reg rawId = (.ECInvalidParam, none)) ∧
    ((∀ j ∈ reg, j.Id ≠ "") → trimSpace rawId = "" →
      CancelCmdHandler reg rawId = (.ECJobNotFound, false)) := by
  refine ⟨fun h => ?_, fun h => ?_, fun hids h => ?_⟩
  · simp [RunCmdHandler, h]
  · simp [QueryCmdHandler, h]
  · simp [CancelCmdHandler, h, bookkeeperGet_empty_id reg hids]

theorem invalid_param_no_state_change_witness :
    RunCmdHandler [] ⟨"", false, "", []⟩ none 0 = (.ECInvalidParam, []) ∧
    QueryCmdHandler [] " " = (.ECInvalidParam, none) ∧
    CancelCmdHandler [] " " = (.ECJobNotFound, false) :=
  have h := invalid_param_no_state_change [] ⟨"", false, "", []⟩ none 0 " "
  ⟨h.1 rfl, h.2.1 (by decide), h.2.2 (by simp) (by decide)⟩

/-- Claim C10: with a non-empty environment-override list the child
process environment is exactly that list (no inheritance of the parent
environment); with an empty override list the nil Env slice survives
the append and the child inherits the full parent environment. -/
theorem env_override_semantics (goos : String) (j : Job)
    (parentEnv : List String) :
    (j.Env ≠ [] → childEnv (buildCmd goos j) parentEnv = j.Env) ∧
    (j.Env = [] → childEnv (buildCmd goos j) parentEnv = parentEnv) := by
  cases he : j.Env <;>
    simp [buildCmd, childEnv, goAppend, he]

theorem env_override_semantics_witness :
    childEnv (buildCmd "linux" jobEnvOverride) ["PATH=/usr/bin"] =
      ["FOO=1", "BAR=2"] ∧
    childEnv (buildCmd "linux" jobRunning) ["PATH=/usr/bin"] =
      ["PATH=/usr/bin"] :=
  ⟨(env_override_semantics "linux" jobEnvOverride ["PATH=/usr/bin"]).1
      (by decide),
   (env_override_semantics "linux" jobRunning ["PATH=/usr/bin"]).2 rfl⟩

end ShellAgent
